import Mathlib

/-!
Verification of the Wifey-app data-gathering pipeline
(`backend/app/services/data_gatherer.py`, `backend/app/services/store_matcher.py`,
`backend/app/models.py`), shallowly embedded in Lean 4.

Strings are modelled with Lean `String`/`List Char`; the database session is
modelled as explicit record-of-lists state; network effects are modelled as
oracle functions supplied to the orchestrator, with an explicit event trace.
-/

namespace Wifey

/-! ### Normalization (`_normalize` in data_gatherer.py) -/

/-- ASCII lower-casing of one character (the case folding applied by
`name.lower()` on the characters relevant to the `[^a-z0-9]` class);
65–90 are the code points of `A`–`Z`. -/
def lowerChar (c : Char) : Char :=
  if 65 ≤ c.toNat ∧ c.toNat ≤ 90 then Char.ofNat (c.toNat + 32) else c

/-- Characters kept by `re.sub(r"[^a-z0-9]", "", ·)`: the class `[a-z0-9]`
(code points 97–122 and 48–57). -/
def isKeptChar (c : Char) : Bool :=
  (97 ≤ c.toNat && c.toNat ≤ 122) || (48 ≤ c.toNat && c.toNat ≤ 57)

/-- `_normalize(name)`: `re.sub(r"[^a-z0-9]", "", name.lower())`. -/
def normalize (name : String) : String :=
  ⟨(name.data.map lowerChar).filter isKeptChar⟩

/-- Python `\s` (also the class `str.strip()` removes). -/
def isSpaceChar (c : Char) : Bool :=
  c = ' ' || c = '\t' || c = '\n' || c = '\x0b' || c = '\x0c' || c = '\r'

/-- Python `str.strip()`: drop leading and trailing whitespace. -/
def pyStrip (s : String) : String :=
  ⟨((s.data.dropWhile isSpaceChar).reverse.dropWhile isSpaceChar).reverse⟩

/-- Mapping a function that fixes every member of a list is the identity. -/
theorem map_id_of_mem {α : Type} {f : α → α} :
    ∀ {l : List α}, (∀ a ∈ l, f a = a) → l.map f = l
  | [], _ => rfl
  | a :: l, h => by
    simp only [List.map_cons, List.cons.injEq]
    exact ⟨h a (List.mem_cons_self a l), map_id_of_mem fun b hb => h b (List.mem_cons_of_mem a hb)⟩

/-- Kept characters are fixed points of lower-casing. -/
theorem lowerChar_of_kept {c : Char} (h : isKeptChar c = true) : lowerChar c = c := by
  unfold isKeptChar at h
  unfold lowerChar
  rw [if_neg]
  simp only [Bool.or_eq_true, Bool.and_eq_true, decide_eq_true_eq] at h
  rintro ⟨h1, h2⟩
  rcases h with ⟨hp1, hp2⟩ | ⟨hp1, hp2⟩ <;> omega

theorem lowerChar_kept_iff {c : Char} (h : isKeptChar c = true) :
    isKeptChar (lowerChar c) = true := by
  rw [lowerChar_of_kept h]; exact h

/-- Every character of `normalize s` lies in `[a-z0-9]`. -/
theorem normalize_chars_kept (s : String) :
    ∀ c ∈ (normalize s).data, isKeptChar c = true := by
  intro c hc
  unfold normalize at hc
  simpa using (List.mem_filter.mp hc).2

/-- Idempotence of `normalize`. -/
theorem normalize_idem (s : String) : normalize (normalize s) = normalize s := by
  unfold normalize
  apply congrArg
  have hmap :
      ((⟨(s.data.map lowerChar).filter isKeptChar⟩ : String).data.map lowerChar)
        = (s.data.map lowerChar).filter isKeptChar := by
    show ((s.data.map lowerChar).filter isKeptChar).map lowerChar
        = (s.data.map lowerChar).filter isKeptChar
    exact map_id_of_mem fun c hc =>
      lowerChar_of_kept (by simpa using (List.mem_filter.mp hc).2)
  rw [hmap, List.filter_eq_self]
  intro c hc
  simpa using (List.mem_filter.mp hc).2

/-! ### Floor parsing (`_parse_floor_from_unit`) -/

/-- Numeric value of a digit run, as `int(...)` computes it. -/
def digitsVal (ds : List Char) : Nat :=
  ds.foldl (fun n c => n * 10 + (c.toNat - 48)) 0

/-- The `#?` part of `re.match(r"#?(\d+)-", ·)`: consume an optional
leading `#`. -/
def stripHash (cs : List Char) : List Char :=
  match cs with
  | c :: rest => if c = '#' then rest else c :: rest
  | [] => []

/-- Match of `re.match(r"#?(\d+)-", u)` on the character list of `u`:
an optional leading `#`, then a maximal nonempty digit run, then `-`;
returns the captured digit run. -/
def floorMatch (cs : List Char) : Option (List Char) :=
  if (stripHash cs).takeWhile Char.isDigit ≠ [] ∧
      ((stripHash cs).drop ((stripHash cs).takeWhile Char.isDigit).length).head? = some '-'
  then some ((stripHash cs).takeWhile Char.isDigit)
  else none

/-- `_parse_floor_from_unit(unit)`: `None`/empty yields no floor; otherwise the
regex match's digit group is parsed as an integer and rendered back. -/
def parseFloorFromUnit (unit : Option String) : Option String :=
  match unit with
  | none => none
  | some u =>
    if u = "" then none
    else
      match floorMatch u.data with
      | some ds => some (toString (digitsVal ds))
      | none => none

/-- A digit run followed by `-` is exactly what `takeWhile isDigit` takes. -/
theorem takeWhile_digit_append (ds rest : List Char) (h : ∀ c ∈ ds, c.isDigit = true) :
    (ds ++ '-' :: rest).takeWhile Char.isDigit = ds := by
  induction ds with
  | nil => simp [List.takeWhile_cons]
  | cons c cs ih =>
    have hc : c.isDigit = true := h c (List.mem_cons_self c cs)
    simp only [List.cons_append, List.takeWhile_cons, hc, if_true]
    rw [ih fun b hb => h b (List.mem_cons_of_mem c hb)]

/-- Dropping as many elements as `takeWhile` keeps is `dropWhile`. -/
theorem drop_takeWhile_length (p : Char → Bool) (l : List Char) :
    l.drop (l.takeWhile p).length = l.dropWhile p := by
  nth_rewrite 2 [← List.takeWhile_append_dropWhile p l]
  exact List.drop_left _ _

/-- `stripHash` either leaves the list alone or removes a leading `#`. -/
theorem stripHash_cases (cs : List Char) :
    stripHash cs = cs ∨ ∃ t, cs = '#' :: t ∧ stripHash cs = t := by
  cases cs with
  | nil => exact Or.inl rfl
  | cons c t =>
    by_cases hc : c = '#'
    · subst hc
      exact Or.inr ⟨t, rfl, by simp [stripHash]⟩
    · exact Or.inl (by simp [stripHash, hc])

/-- Soundness of the literal regex: a successful match exposes the `#?`,
digit-run, `-` decomposition of the input. -/
theorem floorMatch_sound {cs ds : List Char} (h : floorMatch cs = some ds) :
    ∃ rest, ds ≠ [] ∧ (∀ c ∈ ds, c.isDigit = true) ∧
      (cs = ds ++ '-' :: rest ∨ cs = '#' :: (ds ++ '-' :: rest)) := by
  unfold floorMatch at h
  split at h
  · rename_i hcond
    obtain ⟨hne, hhead⟩ := hcond
    injection h with h
    subst h
    have hdigit : ∀ c ∈ (stripHash cs).takeWhile Char.isDigit, c.isDigit = true :=
      fun c hc => List.mem_takeWhile_imp hc
    rw [drop_takeWhile_length] at hhead
    obtain ⟨rest, hrest⟩ : ∃ rest, (stripHash cs).dropWhile Char.isDigit = '-' :: rest := by
      cases hdrop : (stripHash cs).dropWhile Char.isDigit with
      | nil => rw [hdrop] at hhead; simp at hhead
      | cons a t =>
        rw [hdrop] at hhead
        simp only [List.head?_cons, Option.some.injEq] at hhead
        exact ⟨t, by rw [hhead]⟩
    have hdecomp : stripHash cs = (stripHash cs).takeWhile Char.isDigit ++ '-' :: rest := by
      nth_rewrite 1 [← List.takeWhile_append_dropWhile Char.isDigit (stripHash cs)]
      rw [hrest]
    refine ⟨rest, hne, hdigit, ?_⟩
    rcases stripHash_cases cs with hsc | ⟨t, hct, hsc⟩
    · refine Or.inl ?_
      rw [hsc] at hdecomp ⊢
      exact hdecomp
    · refine Or.inr ?_
      rw [hct] at hsc hdecomp ⊢
      rw [hsc] at hdecomp ⊢
      rw [← hdecomp]
  · exact absurd h (by simp)

/-- Completeness of the literal regex: any `#?`, digit-run, `-` decomposition
is matched, capturing the digit run. -/
theorem floorMatch_complete {ds rest cs : List Char} (hne : ds ≠ [])
    (hdig : ∀ c ∈ ds, c.isDigit = true)
    (hcs : cs = ds ++ '-' :: rest ∨ cs = '#' :: (ds ++ '-' :: rest)) :
    floorMatch cs = some ds := by
  have hstrip : stripHash cs = ds ++ '-' :: rest := by
    rcases hcs with hcs | hcs <;> subst hcs
    · cases ds with
      | nil => exact absurd rfl hne
      | cons d t =>
        have hd : d.isDigit = true := hdig d (List.mem_cons_self d t)
        have hdh : ¬ d = '#' := by
          intro h; subst h; exact absurd hd (by decide)
        simp [stripHash, hdh]
    · simp [stripHash]
  unfold floorMatch
  rw [hstrip, takeWhile_digit_append ds rest hdig]
  rw [List.drop_left]
  simp [hne]

/-! ### Postal-code region table and region inference
(`POSTAL_PREFIX_TO_REGION`, `_infer_region_from_address`, `_build_mall_data`) -/

/-- The `POSTAL_PREFIX_TO_REGION` dict, as an association list in source
order. -/
def POSTAL_PREFIX_TO_REGION : List (String × String) :=
  [("01", "Central"), ("02", "Central"), ("03", "Central"), ("04", "Central"),
   ("05", "Central"), ("06", "Central"), ("07", "Central"), ("08", "Central"),
   ("09", "Central"), ("10", "Central"), ("11", "Central"), ("12", "Central"),
   ("13", "Central"), ("14", "Central"), ("15", "Central"), ("16", "East"),
   ("17", "Central"), ("18", "East"), ("19", "East"), ("20", "Central"),
   ("21", "Central"), ("22", "Central"), ("23", "Central"), ("24", "West"),
   ("25", "West"), ("26", "West"), ("27", "West"), ("28", "North"),
   ("29", "North"), ("30", "North"), ("31", "North"), ("32", "North"),
   ("33", "North"), ("34", "North"), ("35", "North"), ("36", "North"),
   ("37", "North"), ("38", "North"), ("39", "North"), ("40", "North"),
   ("41", "North"), ("42", "East"), ("43", "East"), ("44", "East"),
   ("45", "East"), ("46", "East"), ("47", "East"), ("48", "East"),
   ("49", "West"), ("50", "Central"), ("51", "Central"), ("52", "Central"),
   ("53", "North-East"), ("54", "North-East"), ("55", "North-East"),
   ("56", "North-East"), ("57", "North-East"), ("58", "West"), ("59", "West"),
   ("60", "West"), ("61", "West"), ("62", "West"), ("63", "West"), ("64", "West"),
   ("65", "West"), ("66", "West"), ("67", "West"), ("68", "West"), ("69", "West"),
   ("70", "South"), ("71", "South"), ("72", "East"), ("73", "East"),
   ("75", "East"), ("76", "East"), ("77", "East"), ("78", "East"),
   ("79", "North-East"), ("80", "North-East"), ("81", "East"),
   ("82", "North-East"), ("83", "Central"), ("84", "Central")]

/-- `POSTAL_PREFIX_TO_REGION.get(p)`. -/
def postalLookup (p : String) : Option String :=
  (POSTAL_PREFIX_TO_REGION.find? (fun kv => kv.1 == p)).map Prod.snd

/-- `\d{6}` at the current position: exactly six digits, captured. -/
def matchDigits6 (cs : List Char) : Option (List Char) :=
  if (cs.take 6).length = 6 ∧ ∀ c ∈ cs.take 6, c.isDigit = true
  then some (cs.take 6)
  else none

/-- `(?:Singapore\s+)` at the current position: the literal `Singapore`
followed by a maximal nonempty whitespace run; returns the remainder. -/
def stripSingapore (cs : List Char) : Option (List Char) :=
  if "Singapore".data.isPrefixOf cs then
    if ((cs.drop 9).takeWhile isSpaceChar).length ≠ 0 then
      some ((cs.drop 9).drop ((cs.drop 9).takeWhile isSpaceChar).length)
    else none
  else none

/-- One attempt of `(?:Singapore\s+)?(\d{6})` at the current position:
the optional group is tried greedily first, then dropped on failure. -/
def tryMatchAt (cs : List Char) : Option (List Char) :=
  match stripSingapore cs with
  | some rest =>
    match matchDigits6 rest with
    | some g => some g
    | none => matchDigits6 cs
  | none => matchDigits6 cs

/-- `re.search(r"(?:Singapore\s+)?(\d{6})", ·)`: leftmost match, returning
the captured digit group. -/
def searchPostal : List Char → Option (List Char)
  | [] => none
  | c :: rest =>
    match tryMatchAt (c :: rest) with
    | some g => some g
    | none => searchPostal rest

/-- `_infer_region_from_address(address)`. -/
def inferRegionFromAddress (address : String) : Option String :=
  if address = "" then none
  else
    match searchPostal address.data with
    | none => none
    | some g => postalLookup ⟨g.take 2⟩

/-- Python `x or y` on optional strings: empty or absent `x` falls back
to `y`. -/
def pyOrStr (a b : Option String) : Option String :=
  match a with
  | some s => if s = "" then b else some s
  | none => b

/-- Python dict lookup over an assignment list (later assignments win). -/
def dictLookup (m : List (String × String)) (k : String) : Option String :=
  (m.reverse.find? (fun kv => kv.1 == k)).map Prod.snd

/-- `SINGMALLS_BASE`. -/
def SINGMALLS_BASE : String := "https://singmalls.app"

/-- A raw SingMalls mall entry `{"name", "slug", "address"}`. -/
structure RawMall where
  name : String
  slug : String
  address : String
deriving Repr, DecidableEq

/-- The dict handed to `_upsert_mall`. -/
structure MallData where
  name : String
  address : Option String
  region : Option String
  website : Option String
deriving Repr, DecidableEq

/-- `_build_mall_data(raw, wiki_map)`: region priority is Wikipedia lookup,
then postal-code inference. -/
def buildMallData (raw : RawMall) (wikiMap : List (String × String)) : MallData :=
  { name := pyStrip raw.name
    address := if pyStrip raw.address = "" then none else some (pyStrip raw.address)
    region := pyOrStr (dictLookup wikiMap (normalize (pyStrip raw.name)))
      (inferRegionFromAddress (pyStrip raw.address))
    website := if raw.slug ≠ "" then some (SINGMALLS_BASE ++ "/en/malls/" ++ raw.slug)
      else none }

/-- `00`–`99` rendered as a two-character string, the way a postal-code
digit pair appears. -/
def twoDigitCode (n : Nat) : String :=
  (if n < 10 then "0" else "") ++ toString n

theorem matchDigits6_sound {cs g : List Char} (h : matchDigits6 cs = some g) :
    cs = g ++ cs.drop 6 ∧ g.length = 6 ∧ ∀ c ∈ g, c.isDigit = true := by
  unfold matchDigits6 at h
  split at h
  · rename_i hcond
    injection h with h
    subst h
    exact ⟨(List.take_append_drop 6 cs).symm, hcond.1, hcond.2⟩
  · exact absurd h (by simp)

theorem stripSingapore_sound {cs rest : List Char} (h : stripSingapore cs = some rest) :
    ∃ pre, cs = pre ++ rest := by
  unfold stripSingapore at h
  split at h
  · split at h
    · injection h with h
      refine ⟨cs.take 9 ++ (cs.drop 9).take ((cs.drop 9).takeWhile isSpaceChar).length, ?_⟩
      rw [List.append_assoc, ← h, List.take_append_drop, List.take_append_drop]
    · exact absurd h (by simp)
  · exact absurd h (by simp)

theorem tryMatchAt_sound {cs g : List Char} (h : tryMatchAt cs = some g) :
    ∃ pre post, cs = pre ++ g ++ post ∧ g.length = 6 ∧ ∀ c ∈ g, c.isDigit = true := by
  unfold tryMatchAt at h
  split at h
  · rename_i rest hstrip
    split at h
    · rename_i g' hd
      injection h with h
      subst h
      obtain ⟨pre, hpre⟩ := stripSingapore_sound hstrip
      obtain ⟨hdecomp, hlen, hdigits⟩ := matchDigits6_sound hd
      refine ⟨pre, rest.drop 6, ?_, hlen, hdigits⟩
      rw [hpre]
      nth_rewrite 1 [hdecomp]
      rw [List.append_assoc]
    · obtain ⟨hdecomp, hlen, hdigits⟩ := matchDigits6_sound h
      exact ⟨[], cs.drop 6, by simpa using hdecomp, hlen, hdigits⟩
  · obtain ⟨hdecomp, hlen, hdigits⟩ := matchDigits6_sound h
    exact ⟨[], cs.drop 6, by simpa using hdecomp, hlen, hdigits⟩

/-- Any captured postal group is a six-digit run occurring in the input. -/
theorem searchPostal_sound :
    ∀ {cs g : List Char}, searchPostal cs = some g →
      ∃ pre post, cs = pre ++ g ++ post ∧ g.length = 6 ∧ ∀ c ∈ g, c.isDigit = true := by
  intro cs
  induction cs with
  | nil => intro g h; exact absurd h (by simp [searchPostal])
  | cons c rest ih =>
    intro g h
    unfold searchPostal at h
    split at h
    · rename_i g' ht
      injection h with h
      subst h
      exact tryMatchAt_sound ht
    · obtain ⟨pre, post, hdecomp, hlen, hdigits⟩ := ih h
      exact ⟨c :: pre, post, by simp [hdecomp], hlen, hdigits⟩

/-- A six-digit run at the current position is always matched by one
attempt of the pattern (possibly through the optional-group fallback). -/
theorem tryMatchAt_isSome_of_run (g post : List Char) (hlen : g.length = 6)
    (hdig : ∀ c ∈ g, c.isDigit = true) :
    tryMatchAt (g ++ post) ≠ none := by
  have hmd : matchDigits6 (g ++ post) = some g := by
    unfold matchDigits6
    have htake : (g ++ post).take 6 = g := by
      rw [← hlen]
      exact List.take_left g post
    rw [htake, if_pos ⟨hlen, hdig⟩]
  unfold tryMatchAt
  cases hstrip : stripSingapore (g ++ post) with
  | some rest =>
    cases hd : matchDigits6 rest with
    | some g' => simp [hd]
    | none => simp [hd, hmd]
  | none => simp [hmd]

/-- Completeness of the search: a six-digit run anywhere in the input means
the search does not come back empty. -/
theorem searchPostal_isSome_of_run :
    ∀ (pre : List Char) {g post : List Char}, g.length = 6 →
      (∀ c ∈ g, c.isDigit = true) → searchPostal (pre ++ g ++ post) ≠ none := by
  intro pre
  induction pre with
  | nil =>
    intro g post hlen hdig hnone
    have hne := tryMatchAt_isSome_of_run g post hlen hdig
    cases hg : g with
    | nil => rw [hg] at hlen; simp at hlen
    | cons c t =>
      rw [hg] at hnone hne
      rw [List.nil_append, List.cons_append] at hnone
      rw [List.cons_append] at hne
      unfold searchPostal at hnone
      split at hnone
      · exact absurd hnone (by simp)
      · rename_i ht
        exact hne ht
  | cons c pre ih =>
    intro g post hlen hdig hnone
    rw [List.cons_append, List.cons_append] at hnone
    unfold searchPostal at hnone
    split at hnone
    · exact absurd hnone (by simp)
    · exact ih hlen hdig hnone

/-! ### Database model and upsert helpers
(`models.py`; `_upsert_mall`, `_upsert_store`, `_upsert_mall_store`) -/

/-- A row of the `malls` table. -/
structure MallRec where
  id : Nat
  name : String
  address : Option String
  region : Option String
  website : Option String
  last_updated : Nat
deriving Repr, DecidableEq

/-- A row of the `stores` table. -/
structure StoreRec where
  id : Nat
  name : String
  category : Option String
  normalized_name : String
deriving Repr, DecidableEq

/-- A row of the `mall_stores` table (unique on `(mall_id, store_id)`). -/
structure MallStoreRec where
  mall_id : Nat
  store_id : Nat
  floor : Option String
  unit_number : Option String
deriving Repr, DecidableEq

/-- The database session state: the three tables, rows in insertion order. -/
structure DB where
  malls : List MallRec
  stores : List StoreRec
  mallStores : List MallStoreRec
deriving Repr, DecidableEq

/-- The empty database. -/
def DB.empty : DB := ⟨[], [], []⟩

/-- Replace the first element satisfying `p` (the row a SQLAlchemy
`query(...).first()` mutation touches). -/
def updateFirst {α : Type} (p : α → Bool) (f : α → α) : List α → List α
  | [] => []
  | a :: as => if p a then f a :: as else a :: updateFirst p f as

/-- `_upsert_mall(db, mall_data)` at wall-clock time `now`:
match by exact (stripped) name; if absent create with all supplied fields;
if present overwrite address/region/website only with non-empty values
(Python `or`) and always refresh `last_updated`. -/
def upsertMall (db : DB) (d : MallData) (now : Nat) : DB × Option MallRec :=
  let name := pyStrip d.name
  if name = "" then (db, none)
  else
    match db.malls.find? (fun m => m.name == name) with
    | none =>
      let m : MallRec :=
        ⟨db.malls.length, name, d.address, d.region, d.website, now⟩
      ({ db with malls := db.malls ++ [m] }, some m)
    | some m =>
      let m' : MallRec :=
        { m with
          address := pyOrStr d.address m.address
          region := pyOrStr d.region m.region
          website := pyOrStr d.website m.website
          last_updated := now }
      ({ db with malls := updateFirst (fun x => x.name == name) (fun _ => m') db.malls },
       some m')

/-- `_upsert_store(db, store_name, category)`: match by normalized name;
if absent create; if present change nothing. -/
def upsertStore (db : DB) (storeName : String) (category : Option String) :
    DB × StoreRec :=
  let norm := normalize storeName
  match db.stores.find? (fun s => s.normalized_name == norm) with
  | some s => (db, s)
  | none =>
    let s : StoreRec := ⟨db.stores.length, storeName, category, norm⟩
    ({ db with stores := db.stores ++ [s] }, s)

/-- `_upsert_mall_store(db, mall, store, floor, unit)`: create-once on the
`(mall_id, store_id)` pair, never updated. -/
def upsertMallStore (db : DB) (mall : MallRec) (store : StoreRec)
    (floor unit : Option String) : DB :=
  match db.mallStores.find?
      (fun ms => ms.mall_id == mall.id && ms.store_id == store.id) with
  | some _ => db
  | none =>
    { db with mallStores := db.mallStores ++ [⟨mall.id, store.id, floor, unit⟩] }

/-- The MallStore invariant: at most one row per `(mall_id, store_id)`
pair. -/
def MallStorePairUnique (db : DB) : Prop :=
  db.mallStores.Pairwise (fun a b => ¬(a.mall_id = b.mall_id ∧ a.store_id = b.store_id))

/-- `updateFirst` never changes the number of rows. -/
theorem updateFirst_length {α : Type} (p : α → Bool) (f : α → α) :
    ∀ l : List α, (updateFirst p f l).length = l.length
  | [] => rfl
  | a :: as => by
    unfold updateFirst
    split
    · simp
    · simp [updateFirst_length p f as]

/-- `find?` skips an exhausted first segment. -/
theorem find?_append_none {α : Type} {p : α → Bool} {l₁ : List α}
    (h : l₁.find? p = none) (l₂ : List α) : (l₁ ++ l₂).find? p = l₂.find? p := by
  induction l₁ with
  | nil => rfl
  | cons a l ih =>
    cases hpa : p a with
    | true => rw [List.find?_cons_of_pos _ hpa] at h; exact absurd h (by simp)
    | false =>
      have hna : ¬ p a := by simp [hpa]
      rw [List.find?_cons_of_neg _ hna] at h
      rw [List.cons_append, List.find?_cons_of_neg _ hna]
      exact ih h

/-! ### Resilient fetcher (`_http_get`) -/

/-- `MAX_RETRIES`. -/
def MAX_RETRIES : Nat := 3

/-- One attempt's visible outcome at the fetch boundary: a 2xx response
(payload abstracted to a number), an HTTP 429, or any other transport
error / non-2xx status (which `raise_for_status` turns into a
`RequestException`). -/
inductive FetchOutcome where
  | ok (resp : Nat)
  | rateLimited
  | err
deriving Repr, DecidableEq

/-- Whether an outcome is a success. -/
def FetchOutcome.isOk : FetchOutcome → Bool
  | .ok _ => true
  | _ => false

/-- One loop iteration of `_http_get` as observed effects: the attempt
number, its outcome, and the back-off slept before the next iteration
(if any). -/
structure FetchEvent where
  attempt : Nat
  outcome : FetchOutcome
  slept : Option Nat
deriving Repr, DecidableEq

/-- The `for attempt in range(MAX_RETRIES)` loop of `_http_get`, with the
network modelled as an oracle from attempt number to outcome. Returns the
result (`Response` or `None`) and the trace of attempts. -/
def httpGetLoop (outcomes : Nat → FetchOutcome) :
    Nat → Nat → Option Nat × List FetchEvent
  | 0, _ => (none, [])
  | fuel + 1, attempt =>
    match outcomes attempt with
    | .ok r => (some r, [⟨attempt, .ok r, none⟩])
    | .rateLimited =>
      let rest := httpGetLoop outcomes fuel (attempt + 1)
      (rest.1, ⟨attempt, .rateLimited, some (2 ^ (attempt + 1))⟩ :: rest.2)
    | .err =>
      if attempt < MAX_RETRIES - 1 then
        let rest := httpGetLoop outcomes fuel (attempt + 1)
        (rest.1, ⟨attempt, .err, some (2 ^ attempt)⟩ :: rest.2)
      else
        (none, [⟨attempt, .err, none⟩])

/-- `_http_get(url, session)`: run the loop from attempt 0. -/
def httpGet (outcomes : Nat → FetchOutcome) : Option Nat × List FetchEvent :=
  httpGetLoop outcomes MAX_RETRIES 0

/-- The loop makes at most `fuel` attempts. -/
theorem httpGetLoop_trace_length (o : Nat → FetchOutcome) :
    ∀ fuel a, (httpGetLoop o fuel a).2.length ≤ fuel := by
  intro fuel
  induction fuel with
  | zero => intro a; simp [httpGetLoop]
  | succ n ih =>
    intro a
    unfold httpGetLoop
    split
    · simp
    · show (httpGetLoop o n (a + 1)).2.length + 1 ≤ n + 1
      exact Nat.succ_le_succ (ih (a + 1))
    · split
      · show (httpGetLoop o n (a + 1)).2.length + 1 ≤ n + 1
        exact Nat.succ_le_succ (ih (a + 1))
      · show 1 ≤ n + 1
        omega

/-- Every traced attempt backs off per the source: `2^(attempt+1)` on 429
(always), `2^attempt` on an error with a retry left, and no sleep on the
final error. -/
theorem httpGetLoop_sleep (o : Nat → FetchOutcome) :
    ∀ fuel a, ∀ e ∈ (httpGetLoop o fuel a).2,
      (e.outcome = .rateLimited → e.slept = some (2 ^ (e.attempt + 1)))
      ∧ (e.outcome = .err →
          e.slept = if e.attempt < MAX_RETRIES - 1 then some (2 ^ e.attempt) else none)
      ∧ (e.outcome.isOk = true → e.slept = none) := by
  intro fuel
  induction fuel with
  | zero => intro a e he; simp [httpGetLoop] at he
  | succ n ih =>
    intro a e he
    unfold httpGetLoop at he
    split at he
    · rename_i r heq
      simp only [List.mem_singleton] at he
      subst he
      exact ⟨by intro hc; exact absurd hc (by simp),
        by intro hc; exact absurd hc (by simp), fun _ => rfl⟩
    · replace he : e = ⟨a, .rateLimited, some (2 ^ (a + 1))⟩
          ∨ e ∈ (httpGetLoop o n (a + 1)).2 := by
        simpa using he
      rcases he with he | he
      · subst he
        refine ⟨fun _ => rfl, by intro hc; exact absurd hc (by simp), ?_⟩
        intro hc
        exact absurd hc (by simp [FetchOutcome.isOk])
      · exact ih (a + 1) e he
    · split at he
      · rename_i hlt
        replace he : e = ⟨a, .err, some (2 ^ a)⟩
            ∨ e ∈ (httpGetLoop o n (a + 1)).2 := by
          simpa using he
        rcases he with he | he
        · subst he
          refine ⟨by intro hc; exact absurd hc (by simp), fun _ => ?_, ?_⟩
          · simp [hlt]
          · intro hc
            exact absurd hc (by simp [FetchOutcome.isOk])
        · exact ih (a + 1) e he
      · rename_i hlt
        simp only [List.mem_singleton] at he
        subst he
        refine ⟨by intro hc; exact absurd hc (by simp), fun _ => ?_, ?_⟩
        · simp [hlt]
        · intro hc
          exact absurd hc (by simp [FetchOutcome.isOk])

/-- If no attempt in the budget succeeds, the loop returns `None` (a
Failure value, not an exception). -/
theorem httpGetLoop_none (o : Nat → FetchOutcome) :
    ∀ fuel a, (∀ b, a ≤ b → b < a + fuel → (o b).isOk = false) →
      (httpGetLoop o fuel a).1 = none := by
  intro fuel
  induction fuel with
  | zero => intro a _; simp [httpGetLoop]
  | succ n ih =>
    intro a hfail
    unfold httpGetLoop
    split
    · rename_i r heq
      have hb := hfail a (Nat.le_refl a) (by omega)
      rw [heq] at hb
      exact absurd hb (by simp [FetchOutcome.isOk])
    · show (httpGetLoop o n (a + 1)).1 = none
      exact ih (a + 1) fun b hb1 hb2 => hfail b (by omega) (by omega)
    · split
      · show (httpGetLoop o n (a + 1)).1 = none
        exact ih (a + 1) fun b hb1 hb2 => hfail b (by omega) (by omega)
      · rfl

/-! ### Orchestrator (`run_gather_job`) -/

/-- `CAPITALAND_BASE`. -/
def CAPITALAND_BASE : String := "https://www.capitaland.com"

/-- A raw store-directory entry `{"name", "category", "unit"}`. -/
structure RawStore where
  name : String
  category : Option String
  unit : Option String
deriving Repr, DecidableEq

/-- The observable network effects of the run, in order. -/
inductive GatherEvent where
  | fetchPrimary
  | fetchWiki
  | fetchCapitaland
  | fetchSingmallsStores (slug : String)
  | fetchCapitalandStores (slug : String)
deriving Repr, DecidableEq

/-- The environment of one run: what each upstream fetch would yield.
Store-directory fetches may throw (`Except.error`), matching the per-mall
`try/except` in the source. -/
structure GatherEnv where
  primaryMalls : List RawMall
  wikiMap : List (String × String)
  capitalandMalls : List RawMall
  singmallsStores : String → Except String (List RawStore)
  capitalandStores : String → Except String (List RawStore)

/-- The `_job_state` record. -/
structure JobState where
  job_id : Option String
  status : String
  total_malls : Nat
  completed_malls : Nat
  current_mall : Option String
  error : Option String
deriving Repr, DecidableEq

/-- The inner store loop shared by both phases: skip empty names, derive
the floor, upsert the store then the mall-store link. -/
def processStores (db : DB) (mall : MallRec) (stores : List RawStore) : DB :=
  stores.foldl
    (fun db s =>
      if pyStrip s.name = "" then db
      else
        let store := upsertStore db (pyStrip s.name) s.category
        upsertMallStore store.1 mall store.2 (parseFloorFromUnit s.unit) s.unit)
    db

/-- One Phase-2 iteration: skip empty mall names, set progress, upsert the
mall, then attempt the store-directory fetch — a thrown fetch is caught and
only skips that mall's stores. -/
def processSingmallsMall (env : GatherEnv) (now : Nat)
    (acc : DB × JobState × List GatherEvent) (i : Nat) (raw : RawMall) :
    DB × JobState × List GatherEvent :=
  if pyStrip raw.name = "" then acc
  else
    let st := { acc.2.1 with
      current_mall := some (pyStrip raw.name), completed_malls := i }
    let res := upsertMall acc.1 (buildMallData raw env.wikiMap) now
    match res.2 with
    | none => (res.1, st, acc.2.2)
    | some mall =>
      match env.singmallsStores raw.slug with
      | .error _ => (res.1, st, acc.2.2 ++ [GatherEvent.fetchSingmallsStores raw.slug])
      | .ok stores =>
        (processStores res.1 mall stores, st,
         acc.2.2 ++ [GatherEvent.fetchSingmallsStores raw.slug])

/-- The Phase-2 `for i, raw in enumerate(raw_malls)` loop. -/
def runPhase2 (env : GatherEnv) (now : Nat) :
    Nat → List RawMall → DB × JobState × List GatherEvent →
      DB × JobState × List GatherEvent
  | _, [], acc => acc
  | i, raw :: rest, acc =>
    runPhase2 env now (i + 1) rest (processSingmallsMall env now acc i raw)

/-- One Phase-3 iteration (CapitaLand): build the mall data inline as the
source does (no stripping, website from the CapitaLand slug), upsert,
then attempt the Playwright store fetch — a throw is caught per mall. -/
def processCapitalandMall (env : GatherEnv) (now singmallsDone : Nat)
    (acc : DB × JobState × List GatherEvent) (j : Nat) (mi : RawMall) :
    DB × JobState × List GatherEvent :=
  let st := { acc.2.1 with
    current_mall := some ("[CapitaLand] " ++ mi.name)
    completed_malls := singmallsDone + j }
  let mallData : MallData :=
    { name := mi.name
      address := if mi.address = "" then none else some mi.address
      region := pyOrStr (dictLookup env.wikiMap (normalize mi.name))
        (inferRegionFromAddress mi.address)
      website := some (CAPITALAND_BASE ++ "/sg/malls/" ++ mi.slug ++ "/en.html") }
  let res := upsertMall acc.1 mallData now
  match res.2 with
  | none => (res.1, st, acc.2.2)
  | some mall =>
    match env.capitalandStores mi.slug with
    | .error _ => (res.1, st, acc.2.2 ++ [GatherEvent.fetchCapitalandStores mi.slug])
    | .ok stores =>
      (processStores res.1 mall stores, st,
       acc.2.2 ++ [GatherEvent.fetchCapitalandStores mi.slug])

/-- The Phase-3 loop. -/
def runPhase3 (env : GatherEnv) (now singmallsDone : Nat) :
    Nat → List RawMall → DB × JobState × List GatherEvent →
      DB × JobState × List GatherEvent
  | _, [], acc => acc
  | j, mi :: rest, acc =>
    runPhase3 env now singmallsDone (j + 1) rest
      (processCapitalandMall env now singmallsDone acc j mi)

/-- `run_gather_job(job_id)` over an environment, an initial database and a
wall-clock time: returns the final job state, the final database, and the
ordered trace of fetch phases. -/
def runGatherJob (env : GatherEnv) (jobId : String) (db0 : DB) (now : Nat) :
    JobState × DB × List GatherEvent :=
  let st1 : JobState :=
    ⟨some jobId, "running", 0, 0, some "Fetching mall list...", none⟩
  if env.primaryMalls.isEmpty then
    ({ st1 with
        status := "error"
        error := some "Failed to scrape mall list from singmalls.app" },
     db0, [GatherEvent.fetchPrimary])
  else
    let total := env.primaryMalls.length + env.capitalandMalls.length
    let st4 : JobState :=
      { st1 with
        current_mall := some "Fetching CapitaLand mall list..."
        total_malls := total }
    let p2 := runPhase2 env now 0 env.primaryMalls (db0, st4, [])
    let p3 :=
      if env.capitalandMalls.isEmpty then p2
      else runPhase3 env now env.primaryMalls.length 0 env.capitalandMalls
        (p2.1, p2.2.1, p2.2.2)
    ({ p3.2.1 with status := "done", completed_malls := total, current_mall := none },
     p3.1,
     [GatherEvent.fetchPrimary, GatherEvent.fetchWiki, GatherEvent.fetchCapitaland]
       ++ p3.2.2)

/-- A Phase-2 iteration never touches the error field of the job state. -/
theorem processSingmallsMall_error (env : GatherEnv) (now : Nat)
    (acc : DB × JobState × List GatherEvent) (i : Nat) (raw : RawMall) :
    ((processSingmallsMall env now acc i raw).2.1).error = acc.2.1.error := by
  unfold processSingmallsMall
  split
  · rfl
  · dsimp only
    cases (upsertMall acc.1 (buildMallData raw env.wikiMap) now).2 with
    | none => rfl
    | some mall =>
      cases env.singmallsStores raw.slug with
      | error e => rfl
      | ok stores => rfl

/-- Phase 2 never touches the error field of the job state. -/
theorem runPhase2_error (env : GatherEnv) (now : Nat) :
    ∀ (l : List RawMall) (i : Nat) (acc : DB × JobState × List GatherEvent),
      ((runPhase2 env now i l acc).2.1).error = acc.2.1.error := by
  intro l
  induction l with
  | nil => intro i acc; rfl
  | cons raw rest ih =>
    intro i acc
    show ((runPhase2 env now (i + 1) rest
      (processSingmallsMall env now acc i raw)).2.1).error = acc.2.1.error
    rw [ih (i + 1) (processSingmallsMall env now acc i raw)]
    exact processSingmallsMall_error env now acc i raw

/-- A Phase-3 iteration never touches the error field of the job state. -/
theorem processCapitalandMall_error (env : GatherEnv) (now singmallsDone : Nat)
    (acc : DB × JobState × List GatherEvent) (j : Nat) (mi : RawMall) :
    ((processCapitalandMall env now singmallsDone acc j mi).2.1).error
      = acc.2.1.error := by
  unfold processCapitalandMall
  dsimp only
  cases (upsertMall acc.1 _ now).2 with
  | none => rfl
  | some mall =>
    cases env.capitalandStores mi.slug with
    | error e => rfl
    | ok stores => rfl

/-- Phase 3 never touches the error field of the job state. -/
theorem runPhase3_error (env : GatherEnv) (now singmallsDone : Nat) :
    ∀ (l : List RawMall) (j : Nat) (acc : DB × JobState × List GatherEvent),
      ((runPhase3 env now singmallsDone j l acc).2.1).error = acc.2.1.error := by
  intro l
  induction l with
  | nil => intro j acc; rfl
  | cons mi rest ih =>
    intro j acc
    show ((runPhase3 env now singmallsDone (j + 1) rest
      (processCapitalandMall env now singmallsDone acc j mi)).2.1).error
      = acc.2.1.error
    rw [ih (j + 1) (processCapitalandMall env now singmallsDone acc j mi)]
    exact processCapitalandMall_error env now singmallsDone acc j mi

/-- The C9 scenario: two primary malls; the second mall's store-directory
fetch throws. -/
def scenarioEnv : GatherEnv :=
  { primaryMalls := [⟨"Mall One", "m1", ""⟩, ⟨"Mall Two", "m2", ""⟩]
    wikiMap := []
    capitalandMalls := []
    singmallsStores := fun slug =>
      if slug = "m1" then Except.ok [⟨"Store A", some "Cat", some "#01-01"⟩]
      else Except.error "boom"
    capitalandStores := fun _ => Except.ok [] }

/-! ### Store matcher (`store_matcher.py`: `_fallback_match`) -/

/-- A `MatchedStore` result row. -/
structure MatchedStore where
  requested : String
  matched_id : Option Nat
  matched_name : Option String
  found : Bool
deriving Repr, DecidableEq

/-- The normalization inlined in `_fallback_match`:
`re.sub(r"[^a-z0-9]", "", name.lower())`. -/
def matcherNormalize (name : String) : String :=
  ⟨(name.data.map lowerChar).filter isKeptChar⟩

/-- The dict comprehension `{s.normalized_name: s for s in all_stores}`
as an assignment list (later assignments win on lookup). -/
def storeNameMap (stores : List StoreRec) : List (String × StoreRec) :=
  stores.map (fun s => (s.normalized_name, s))

/-- Python dict lookup on the assignment list: last assignment wins. -/
def dictGetStore (m : List (String × StoreRec)) (k : String) : Option StoreRec :=
  (m.reverse.find? (fun kv => kv.1 == k)).map Prod.snd

/-- `_fallback_match(db, user_stores, store_name_map)`: one result per
requested name, in input order. -/
def fallbackMatch (userStores : List String) (m : List (String × StoreRec)) :
    List MatchedStore :=
  userStores.map fun name =>
    match dictGetStore m (matcherNormalize name) with
    | some store => ⟨name, some store.id, some store.name, true⟩
    | none => ⟨name, none, none, false⟩

/-- A successful dict hit comes from a store in the list whose stored key
is the looked-up one. -/
theorem dictGetStore_some {stores : List StoreRec} {k : String} {s : StoreRec}
    (h : dictGetStore (storeNameMap stores) k = some s) :
    s ∈ stores ∧ s.normalized_name = k := by
  unfold dictGetStore at h
  cases hf : (storeNameMap stores).reverse.find? (fun kv => kv.1 == k) with
  | none => rw [hf] at h; exact absurd h (by simp)
  | some kv =>
    rw [hf] at h
    simp only [Option.map_some'] at h
    have hmem := List.mem_of_find?_eq_some hf
    have hpred := List.find?_some hf
    rw [List.mem_reverse] at hmem
    obtain ⟨st, hst, hkv⟩ := List.mem_map.mp hmem
    subst hkv
    simp only [beq_iff_eq] at hpred
    injection h with h
    subst h
    exact ⟨hst, hpred⟩

/-- A dict miss means no store in the list carries the looked-up key. -/
theorem dictGetStore_none {stores : List StoreRec} {k : String}
    (h : dictGetStore (storeNameMap stores) k = none) :
    ∀ s ∈ stores, s.normalized_name ≠ k := by
  intro s hs
  unfold dictGetStore at h
  cases hf : (storeNameMap stores).reverse.find? (fun kv => kv.1 == k) with
  | some kv => rw [hf] at h; exact absurd h (by simp)
  | none =>
    rw [List.find?_eq_none] at hf
    have hmem : (s.normalized_name, s) ∈ (storeNameMap stores).reverse := by
      rw [List.mem_reverse]
      exact List.mem_map.mpr ⟨s, hs, rfl⟩
    have := hf _ hmem
    simpa using this

end Wifey

/-- **C1**: `normalize` is idempotent, its result contains only characters in
`[a-z0-9]`, and it collapses case/punctuation variants:
`normalize "ION Orchard" = normalize "ion-orchard!!"`. -/
theorem C1_normalize_idempotent_and_collapsing :
    (∀ s : String, Wifey.normalize (Wifey.normalize s) = Wifey.normalize s)
    ∧ (∀ s : String, ∀ c ∈ (Wifey.normalize s).data, Wifey.isKeptChar c = true)
    ∧ Wifey.normalize "ION Orchard" = Wifey.normalize "ion-orchard!!" := by
  refine ⟨Wifey.normalize_idem, Wifey.normalize_chars_kept, ?_⟩
  decide

/-- **C6**: floor parsing matches exactly `#?(\d+)-` at the start of the unit
string; a match's digit run is rendered as an integer with no leading zeros
(`"#03-24A" ↦ "3"`, `"#9-01" ↦ "9"`); non-matching strings (`"B1-02"`) and
`None`/empty input yield no floor. -/
theorem C6_floor_parsing :
    Wifey.parseFloorFromUnit none = none
    ∧ Wifey.parseFloorFromUnit (some "") = none
    ∧ (∀ (u : String) (ds rest : List Char), ds ≠ [] → (∀ c ∈ ds, c.isDigit = true) →
        (u.data = ds ++ '-' :: rest ∨ u.data = '#' :: (ds ++ '-' :: rest)) →
        Wifey.parseFloorFromUnit (some u) = some (toString (Wifey.digitsVal ds)))
    ∧ (∀ (u : String) (f : String), Wifey.parseFloorFromUnit (some u) = some f →
        ∃ ds rest, ds ≠ [] ∧ (∀ c ∈ ds, c.isDigit = true) ∧
          (u.data = ds ++ '-' :: rest ∨ u.data = '#' :: (ds ++ '-' :: rest)) ∧
          f = toString (Wifey.digitsVal ds))
    ∧ Wifey.parseFloorFromUnit (some "#03-24A") = some "3"
    ∧ Wifey.parseFloorFromUnit (some "#9-01") = some "9"
    ∧ Wifey.parseFloorFromUnit (some "B1-02") = none := by
  refine ⟨rfl, rfl, ?_, ?_, by decide, by decide, by decide⟩
  · intro u ds rest hne hdig hdecomp
    have hmatch := Wifey.floorMatch_complete hne hdig hdecomp
    have hu : ¬ u = "" := by
      intro h
      subst h
      rcases hdecomp with h | h <;> simp at h
    simp only [Wifey.parseFloorFromUnit, hu, if_false, hmatch]
  · intro u f hparse
    simp only [Wifey.parseFloorFromUnit] at hparse
    split at hparse
    · exact absurd hparse (by simp)
    · cases hmatch : Wifey.floorMatch u.data with
      | none => rw [hmatch] at hparse; exact absurd hparse (by simp)
      | some ds =>
        rw [hmatch] at hparse
        obtain ⟨rest, hne, hdig, hdecomp⟩ := Wifey.floorMatch_sound hmatch
        injection hparse with hf
        exact ⟨ds, rest, hne, hdig, hdecomp, hf.symm⟩

/-- **C2**: Store upsert is first-writer-wins: an existing Store with the
same normalized name is left untouched and no row is created; an absent one
is created exactly once with the supplied name and category; upserting
`("Uniqlo","Fashion")` then `("UNIQLO","Kids")` yields exactly one Store
with category `"Fashion"`. -/
theorem C2_store_upsert_first_writer_wins :
    (∀ (db : Wifey.DB) (name : String) (cat : Option String),
      (∃ s ∈ db.stores, s.normalized_name = Wifey.normalize name) →
      (Wifey.upsertStore db name cat).1 = db)
    ∧ (∀ (db : Wifey.DB) (name : String) (cat : Option String),
      (¬ ∃ s ∈ db.stores, s.normalized_name = Wifey.normalize name) →
      (Wifey.upsertStore db name cat).1.stores
        = db.stores ++ [⟨db.stores.length, name, cat, Wifey.normalize name⟩])
    ∧ (Wifey.upsertStore
        (Wifey.upsertStore Wifey.DB.empty "Uniqlo" (some "Fashion")).1
        "UNIQLO" (some "Kids")).1.stores
      = [⟨0, "Uniqlo", some "Fashion", "uniqlo"⟩] := by
  refine ⟨?_, ?_, by decide⟩
  · rintro db name cat ⟨s, hs, hnorm⟩
    simp only [Wifey.upsertStore]
    split
    · rfl
    · rename_i hnone
      rw [List.find?_eq_none] at hnone
      exact absurd (by simp [hnorm]) (hnone s hs)
  · intro db name cat habs
    simp only [Wifey.upsertStore]
    split
    · rename_i s hsome
      have hmem := List.mem_of_find?_eq_some hsome
      have hprop := List.find?_some hsome
      simp only [beq_iff_eq] at hprop
      exact absurd ⟨s, hmem, hprop⟩ habs
    · rfl

/-- Witness for C2's hypothesised conjuncts: re-upserting an existing
normalized name changes nothing; inserting into the empty database appends
the supplied row. -/
theorem C2_store_upsert_first_writer_wins_witness :
    (Wifey.upsertStore ⟨[], [⟨0, "Uniqlo", some "Fashion", "uniqlo"⟩], []⟩
        "UNIQLO" (some "Kids")).1
      = ⟨[], [⟨0, "Uniqlo", some "Fashion", "uniqlo"⟩], []⟩
    ∧ (Wifey.upsertStore Wifey.DB.empty "Uniqlo" (some "Fashion")).1.stores
      = [⟨0, "Uniqlo", some "Fashion", Wifey.normalize "Uniqlo"⟩] :=
  ⟨C2_store_upsert_first_writer_wins.1
      ⟨[], [⟨0, "Uniqlo", some "Fashion", "uniqlo"⟩], []⟩ "UNIQLO" (some "Kids")
      (by decide),
   C2_store_upsert_first_writer_wins.2.1 Wifey.DB.empty "Uniqlo" (some "Fashion")
      (by decide)⟩

/-- **C3**: the `(mall, store)` relation is create-once: the at-most-one-row
invariant is preserved by every upsert (and holds in the empty database),
and re-upserting the same pair with any other floor/unit values is a no-op
on the database. -/
theorem C3_mall_store_create_once :
    (Wifey.MallStorePairUnique Wifey.DB.empty)
    ∧ (∀ (db : Wifey.DB) (mall : Wifey.MallRec) (store : Wifey.StoreRec)
        (floor unit : Option String),
      Wifey.MallStorePairUnique db →
      Wifey.MallStorePairUnique (Wifey.upsertMallStore db mall store floor unit))
    ∧ (∀ (db : Wifey.DB) (mall : Wifey.MallRec) (store : Wifey.StoreRec)
        (f u f' u' : Option String),
      Wifey.upsertMallStore (Wifey.upsertMallStore db mall store f u) mall store f' u'
        = Wifey.upsertMallStore db mall store f u) := by
  refine ⟨List.Pairwise.nil, ?_, ?_⟩
  · intro db mall store floor unit hinv
    unfold Wifey.upsertMallStore
    split
    · exact hinv
    · rename_i hnone
      rw [List.find?_eq_none] at hnone
      unfold Wifey.MallStorePairUnique
      rw [List.pairwise_append]
      refine ⟨hinv, by simp, ?_⟩
      intro a ha b hb
      simp only [List.mem_singleton] at hb
      subst hb
      rintro ⟨h1, h2⟩
      exact hnone a ha (by simp [h1, h2])
  · intro db mall store f u f' u'
    cases hfind : db.mallStores.find?
        (fun ms => ms.mall_id == mall.id && ms.store_id == store.id) with
    | some ms =>
      have h1 : Wifey.upsertMallStore db mall store f u = db := by
        simp only [Wifey.upsertMallStore, hfind]
      have h2 : Wifey.upsertMallStore db mall store f' u' = db := by
        simp only [Wifey.upsertMallStore, hfind]
      rw [h1, h2]
    | none =>
      have h1 : Wifey.upsertMallStore db mall store f u
          = { db with mallStores := db.mallStores ++ [⟨mall.id, store.id, f, u⟩] } := by
        simp only [Wifey.upsertMallStore, hfind]
      have hfind2 :
          ({ db with mallStores := db.mallStores ++ [⟨mall.id, store.id, f, u⟩] }
            : Wifey.DB).mallStores.find?
            (fun ms => ms.mall_id == mall.id && ms.store_id == store.id)
          = some ⟨mall.id, store.id, f, u⟩ := by
        show (db.mallStores ++ [(⟨mall.id, store.id, f, u⟩ : Wifey.MallStoreRec)]).find? _
          = _
        rw [Wifey.find?_append_none hfind]
        simp
      rw [h1]
      simp only [Wifey.upsertMallStore, hfind2]

/-- Witness for C3's hypothesised conjunct: the invariant survives an upsert
into the empty database. -/
theorem C3_mall_store_create_once_witness :
    Wifey.MallStorePairUnique
      (Wifey.upsertMallStore Wifey.DB.empty ⟨0, "M", none, none, none, 0⟩
        ⟨0, "S", none, "s"⟩ (some "3") (some "#03-01")) :=
  C3_mall_store_create_once.2.1 Wifey.DB.empty ⟨0, "M", none, none, none, 0⟩
    ⟨0, "S", none, "s"⟩ (some "3") (some "#03-01") List.Pairwise.nil

/-- **C4**: Mall upsert has asymmetric overwrite semantics: absent names are
created with all supplied fields; for an existing row each of
address/region/website is taken from the new value only when non-empty
(empty or absent keeps the old value), no row is added, and `last_updated`
is refreshed to the current time in both branches. -/
theorem C4_mall_upsert_asymmetric_overwrite :
    (∀ (b : Option String), Wifey.pyOrStr none b = b)
    ∧ (∀ (b : Option String), Wifey.pyOrStr (some "") b = b)
    ∧ (∀ (s : String) (b : Option String), s ≠ "" → Wifey.pyOrStr (some s) b = some s)
    ∧ (∀ (db : Wifey.DB) (d : Wifey.MallData) (now : Nat),
      Wifey.pyStrip d.name ≠ "" →
      db.malls.find? (fun m => m.name == Wifey.pyStrip d.name) = none →
      (Wifey.upsertMall db d now).1.malls
        = db.malls ++ [⟨db.malls.length, Wifey.pyStrip d.name, d.address, d.region,
            d.website, now⟩])
    ∧ (∀ (db : Wifey.DB) (d : Wifey.MallData) (now : Nat) (m : Wifey.MallRec),
      Wifey.pyStrip d.name ≠ "" →
      db.malls.find? (fun x => x.name == Wifey.pyStrip d.name) = some m →
      (Wifey.upsertMall db d now).2
        = some { m with
            address := Wifey.pyOrStr d.address m.address
            region := Wifey.pyOrStr d.region m.region
            website := Wifey.pyOrStr d.website m.website
            last_updated := now }
      ∧ ((Wifey.upsertMall db d now).1.malls.length = db.malls.length))
    ∧ ((Wifey.upsertMall ⟨[⟨0, "M", none, some "Central", none, 0⟩], [], []⟩
          ⟨"M", none, some "", none⟩ 5).1.malls
        = [⟨0, "M", none, some "Central", none, 5⟩])
    ∧ ((Wifey.upsertMall ⟨[⟨0, "M", none, some "Central", none, 0⟩], [], []⟩
          ⟨"M", none, some "North", none⟩ 5).1.malls
        = [⟨0, "M", none, some "North", none, 5⟩]) := by
  refine ⟨fun b => rfl, fun b => rfl, ?_, ?_, ?_, by decide, by decide⟩
  · intro s b hs
    simp [Wifey.pyOrStr, hs]
  · intro db d now hname hnone
    simp only [Wifey.upsertMall, if_neg hname, hnone]
  · intro db d now m hname hsome
    constructor
    · simp only [Wifey.upsertMall, if_neg hname, hsome]
    · simp only [Wifey.upsertMall, if_neg hname, hsome]
      simp [Wifey.updateFirst_length]

/-- Witness for C4's hypothesised conjuncts at concrete databases. -/
theorem C4_mall_upsert_asymmetric_overwrite_witness :
    Wifey.pyOrStr (some "North") (some "Central") = some "North"
    ∧ (Wifey.upsertMall Wifey.DB.empty ⟨"Mall A", some "1 Road", none, none⟩ 7).1.malls
      = [⟨0, "Mall A", some "1 Road", none, none, 7⟩]
    ∧ ((Wifey.upsertMall ⟨[⟨0, "M", none, some "Central", none, 0⟩], [], []⟩
          ⟨"M", none, some "North", none⟩ 5).2
        = some ⟨0, "M", none, some "North", none, 5⟩
      ∧ (Wifey.upsertMall ⟨[⟨0, "M", none, some "Central", none, 0⟩], [], []⟩
          ⟨"M", none, some "North", none⟩ 5).1.malls.length = 1) :=
  ⟨C4_mall_upsert_asymmetric_overwrite.2.2.1 "North" (some "Central") (by decide),
   C4_mall_upsert_asymmetric_overwrite.2.2.2.1 Wifey.DB.empty
      ⟨"Mall A", some "1 Road", none, none⟩ 7 (by decide) (by decide),
   C4_mall_upsert_asymmetric_overwrite.2.2.2.2.1
      ⟨[⟨0, "M", none, some "Central", none, 0⟩], [], []⟩
      ⟨"M", none, some "North", none⟩ 5 ⟨0, "M", none, some "Central", none, 0⟩
      (by decide) (by decide)⟩

/-- **C7**: the fetcher attempts a URL at most 3 times (`MAX_RETRIES`);
on HTTP 429 it always sleeps `2^(attempt+1)` before the next try; on any
other transport error or non-2xx status it sleeps `2^attempt` before
retrying; after exhausting all attempts it returns `None` rather than
raising. -/
theorem C7_fetcher_bounded_retry_backoff :
    Wifey.MAX_RETRIES = 3
    ∧ (∀ o : Nat → Wifey.FetchOutcome, (Wifey.httpGet o).2.length ≤ 3)
    ∧ (∀ o : Nat → Wifey.FetchOutcome, ∀ e ∈ (Wifey.httpGet o).2,
        (e.outcome = Wifey.FetchOutcome.rateLimited →
          e.slept = some (2 ^ (e.attempt + 1)))
        ∧ (e.outcome = Wifey.FetchOutcome.err → e.attempt < Wifey.MAX_RETRIES - 1 →
          e.slept = some (2 ^ e.attempt)))
    ∧ (∀ o : Nat → Wifey.FetchOutcome,
        (∀ b, b < 3 → (o b).isOk = false) → (Wifey.httpGet o).1 = none) := by
  refine ⟨rfl, ?_, ?_, ?_⟩
  · intro o
    exact Wifey.httpGetLoop_trace_length o Wifey.MAX_RETRIES 0
  · intro o e he
    have h := Wifey.httpGetLoop_sleep o Wifey.MAX_RETRIES 0 e he
    refine ⟨h.1, fun herr hlt => ?_⟩
    rw [h.2.1 herr, if_pos hlt]
  · intro o hfail
    refine Wifey.httpGetLoop_none o Wifey.MAX_RETRIES 0 fun b hb1 hb2 => ?_
    refine hfail b ?_
    simpa [Wifey.MAX_RETRIES] using hb2

/-- Witness for C7's hypothesised conjuncts: with every attempt failing,
the second attempt (attempt index 1) sleeps `2^1` and the fetch returns
`None`. -/
theorem C7_fetcher_bounded_retry_backoff_witness :
    ((⟨1, Wifey.FetchOutcome.err, some 2⟩ : Wifey.FetchEvent).slept = some (2 ^ 1))
    ∧ (Wifey.httpGet (fun _ => Wifey.FetchOutcome.err)).1 = none :=
  ⟨(C7_fetcher_bounded_retry_backoff.2.2.1 (fun _ => Wifey.FetchOutcome.err)
      ⟨1, Wifey.FetchOutcome.err, some 2⟩ (by decide)).2 rfl (by decide),
   C7_fetcher_bounded_retry_backoff.2.2.2 (fun _ => Wifey.FetchOutcome.err)
      (by decide)⟩

/-- **C8**: with an empty primary mall list the run goes straight from
`running` to `error` with a message naming the primary source,
`completed_items` stays 0, the database is untouched, and no downstream
phase (region map, secondary source, per-mall processing, store upserts)
executes. -/
theorem C8_empty_primary_goes_to_error :
    ∀ (env : Wifey.GatherEnv) (jobId : String) (db0 : Wifey.DB) (now : Nat),
      env.primaryMalls = [] →
      (Wifey.runGatherJob env jobId db0 now).1.status = "error"
      ∧ (Wifey.runGatherJob env jobId db0 now).1.error
        = some "Failed to scrape mall list from singmalls.app"
      ∧ (Wifey.runGatherJob env jobId db0 now).1.completed_malls = 0
      ∧ (Wifey.runGatherJob env jobId db0 now).2.1 = db0
      ∧ (Wifey.runGatherJob env jobId db0 now).2.2
        = [Wifey.GatherEvent.fetchPrimary] := by
  intro env jobId db0 now h
  have hempty : env.primaryMalls.isEmpty = true := by simp [h]
  refine ⟨?_, ?_, ?_, ?_, ?_⟩ <;> simp [Wifey.runGatherJob, hempty]

/-- Witness for C8 at a concrete empty environment. -/
theorem C8_empty_primary_goes_to_error_witness :
    (Wifey.runGatherJob ⟨[], [], [], fun _ => Except.ok [], fun _ => Except.ok []⟩
      "job-1" Wifey.DB.empty 0).1.status = "error"
    ∧ (Wifey.runGatherJob ⟨[], [], [], fun _ => Except.ok [], fun _ => Except.ok []⟩
      "job-1" Wifey.DB.empty 0).2.2 = [Wifey.GatherEvent.fetchPrimary] :=
  ⟨(C8_empty_primary_goes_to_error
      ⟨[], [], [], fun _ => Except.ok [], fun _ => Except.ok []⟩
      "job-1" Wifey.DB.empty 0 rfl).1,
   (C8_empty_primary_goes_to_error
      ⟨[], [], [], fun _ => Except.ok [], fun _ => Except.ok []⟩
      "job-1" Wifey.DB.empty 0 rfl).2.2.2.2⟩

/-- **C9**: a per-mall store-directory failure is caught per mall and never
aborts the run: any run with a non-empty primary list finishes `done` with
`completed_items = total_items` and no error; in the concrete two-mall
scenario where the second mall's store fetch throws, the first mall's
stores are recorded and the second mall exists with zero MallStore rows. -/
theorem C9_per_mall_failure_isolated :
    (∀ (env : Wifey.GatherEnv) (jobId : String) (db0 : Wifey.DB) (now : Nat),
      env.primaryMalls ≠ [] →
      (Wifey.runGatherJob env jobId db0 now).1.status = "done"
      ∧ (Wifey.runGatherJob env jobId db0 now).1.completed_malls
        = env.primaryMalls.length + env.capitalandMalls.length
      ∧ (Wifey.runGatherJob env jobId db0 now).1.error = none)
    ∧ (Wifey.runGatherJob Wifey.scenarioEnv "job-2" Wifey.DB.empty 42).1.status = "done"
    ∧ (Wifey.runGatherJob Wifey.scenarioEnv "job-2" Wifey.DB.empty 42).1.completed_malls
      = 2
    ∧ (Wifey.runGatherJob Wifey.scenarioEnv "job-2" Wifey.DB.empty 42).1.error = none
    ∧ ((Wifey.runGatherJob Wifey.scenarioEnv "job-2" Wifey.DB.empty 42).2.1.malls.map
        (fun m => m.name)) = ["Mall One", "Mall Two"]
    ∧ (Wifey.runGatherJob Wifey.scenarioEnv "job-2" Wifey.DB.empty 42).2.1.stores
      = [⟨0, "Store A", some "Cat", "storea"⟩]
    ∧ (Wifey.runGatherJob Wifey.scenarioEnv "job-2" Wifey.DB.empty 42).2.1.mallStores
      = [⟨0, 0, some "1", some "#01-01"⟩]
    ∧ ((Wifey.runGatherJob Wifey.scenarioEnv "job-2" Wifey.DB.empty
        42).2.1.mallStores.filter (fun ms => ms.mall_id == 1)) = [] := by
  refine ⟨?_, by decide, by decide, by decide, by decide, by decide, by decide, by decide⟩
  intro env jobId db0 now h
  have hne : env.primaryMalls.isEmpty = false := by
    cases hl : env.primaryMalls
    · exact absurd hl h
    · rfl
  unfold Wifey.runGatherJob
  rw [hne]
  dsimp only
  refine ⟨rfl, rfl, ?_⟩
  by_cases hc : env.capitalandMalls.isEmpty
  · rw [if_pos hc, Wifey.runPhase2_error]
    rfl
  · rw [if_neg hc, Wifey.runPhase3_error, Wifey.runPhase2_error]
    rfl

/-- Witness for C9's hypothesised conjunct at the concrete scenario. -/
theorem C9_per_mall_failure_isolated_witness :
    (Wifey.runGatherJob Wifey.scenarioEnv "w-job" Wifey.DB.empty 7).1.status = "done"
    ∧ (Wifey.runGatherJob Wifey.scenarioEnv "w-job" Wifey.DB.empty 7).1.completed_malls
      = Wifey.scenarioEnv.primaryMalls.length + Wifey.scenarioEnv.capitalandMalls.length
    ∧ (Wifey.runGatherJob Wifey.scenarioEnv "w-job" Wifey.DB.empty 7).1.error = none :=
  C9_per_mall_failure_isolated.1 Wifey.scenarioEnv "w-job" Wifey.DB.empty 7 (by decide)

/-- **C5 (counterexample)**: the prefix table does not cover all 100 possible
two-digit prefixes: `"74"` (among others) is unmapped, so the valid postal
address `"Singapore 740000"` yields no inferred region. -/
theorem C5_region_resolution_counterexample :
    Wifey.postalLookup "74" = none
    ∧ Wifey.inferRegionFromAddress "Singapore 740000" = none := by
  constructor <;> decide

/-- **C5 (amended)**: region resolution follows the priority chain
(static-markup lookup by normalized name, else postal-code inference from an
optional literal `Singapore` followed by 6 digits, taking the first 2 digits
as a prefix, else unset); the prefix table covers 83 of the 100 possible
prefixes — exactly `"01"`–`"84"` without `"74"` — and an unmapped prefix
yields no region; an address with no 6-digit run yields no inferred region;
`"Singapore 238801"` resolves prefix `"23"` to `"Central"`. -/
theorem C5_region_resolution_amended :
    (∀ (raw : Wifey.RawMall) (wikiMap : List (String × String)) (r : String),
      Wifey.dictLookup wikiMap (Wifey.normalize (Wifey.pyStrip raw.name)) = some r →
      r ≠ "" → (Wifey.buildMallData raw wikiMap).region = some r)
    ∧ (∀ (raw : Wifey.RawMall) (wikiMap : List (String × String)),
      Wifey.dictLookup wikiMap (Wifey.normalize (Wifey.pyStrip raw.name)) = none →
      (Wifey.buildMallData raw wikiMap).region
        = Wifey.inferRegionFromAddress (Wifey.pyStrip raw.address))
    ∧ (∀ (addr : String),
      (¬ ∃ pre g post, addr.data = pre ++ g ++ post ∧ g.length = 6 ∧
        ∀ c ∈ g, c.isDigit = true) →
      Wifey.inferRegionFromAddress addr = none)
    ∧ (∀ n, n < 100 →
      ((Wifey.postalLookup (Wifey.twoDigitCode n)).isSome
        ↔ (1 ≤ n ∧ n ≤ 84 ∧ n ≠ 74)))
    ∧ Wifey.POSTAL_PREFIX_TO_REGION.length = 83
    ∧ Wifey.postalLookup "23" = some "Central"
    ∧ Wifey.inferRegionFromAddress "313 Orchard Road, Singapore 238801"
        = some "Central" := by
  refine ⟨?_, ?_, ?_, by decide, by decide, by decide, by decide⟩
  · intro raw wikiMap r hlook hne
    simp only [Wifey.buildMallData, Wifey.pyOrStr, hlook, hne, if_false]
  · intro raw wikiMap hlook
    simp only [Wifey.buildMallData, Wifey.pyOrStr, hlook]
  · intro addr hno
    unfold Wifey.inferRegionFromAddress
    split
    · rfl
    · cases hs : Wifey.searchPostal addr.data with
      | none => rfl
      | some g =>
        obtain ⟨pre, post, hdecomp, hlen, hdigits⟩ := Wifey.searchPostal_sound hs
        exact absurd ⟨pre, g, post, hdecomp, hlen, hdigits⟩ hno

/-- Witness for C5's hypothesised conjuncts: Wikipedia lookup wins for
`"ION Orchard"`, absence of a lookup falls back to postal inference, an
address without six consecutive digits infers nothing, and prefix `"74"`
is one of the uncovered codes. -/
theorem C5_region_resolution_amended_witness :
    (Wifey.buildMallData ⟨"ION Orchard", "ion-orchard", "Singapore 740000"⟩
      [("ionorchard", "Central")]).region = some "Central"
    ∧ (Wifey.buildMallData ⟨"Far Mall", "far-mall", "Singapore 238801"⟩ []).region
        = Wifey.inferRegionFromAddress (Wifey.pyStrip "Singapore 238801")
    ∧ Wifey.inferRegionFromAddress "12 Short St" = none
    ∧ ((Wifey.postalLookup (Wifey.twoDigitCode 74)).isSome
        ↔ (1 ≤ 74 ∧ 74 ≤ 84 ∧ 74 ≠ 74)) :=
  ⟨C5_region_resolution_amended.1 ⟨"ION Orchard", "ion-orchard", "Singapore 740000"⟩
      [("ionorchard", "Central")] "Central" (by decide) (by decide),
   C5_region_resolution_amended.2.1 ⟨"Far Mall", "far-mall", "Singapore 238801"⟩ []
      (by decide),
   C5_region_resolution_amended.2.2.1 "12 Short St" (by
      rintro ⟨pre, g, post, hd, hl, hdig⟩
      have hnone : Wifey.searchPostal "12 Short St".data = none := by decide
      rw [hd] at hnone
      exact Wifey.searchPostal_isSome_of_run pre hl hdig hnone),
   C5_region_resolution_amended.2.2.2.1 74 (by decide)⟩

/-- **C10**: the search matcher and the ingestion pipeline use the same
normalization; `_fallback_match` returns exactly one result per requested
name, in input order; over a store table produced by `_upsert_store`
(normalized key set from the display name, keys pairwise distinct — both
preserved by every upsert), a query `Q` is matched, and matched to the
store with display name `N`, exactly when `normalize Q = normalize N`,
and `found = false` when no store has that normalized name. -/
theorem C10_matcher_matches_ingestion_normalization :
    (∀ s : String, Wifey.matcherNormalize s = Wifey.normalize s)
    ∧ (∀ (qs : List String) (m : List (String × Wifey.StoreRec)),
        List.Forall₂ (fun q r => (r : Wifey.MatchedStore).requested = q) qs
          (Wifey.fallbackMatch qs m)
        ∧ (Wifey.fallbackMatch qs m).length = qs.length)
    ∧ (∀ (stores : List Wifey.StoreRec) (qs : List String),
        (∀ s ∈ stores, s.normalized_name = Wifey.normalize s.name) →
        stores.Pairwise (fun a b => a.normalized_name ≠ b.normalized_name) →
        List.Forall₂ (fun q r =>
          ((r : Wifey.MatchedStore).found = true
            ↔ ∃ s ∈ stores, Wifey.normalize q = Wifey.normalize s.name)
          ∧ (∀ t ∈ stores, Wifey.normalize q = Wifey.normalize t.name →
              r.matched_id = some t.id ∧ r.matched_name = some t.name))
          qs (Wifey.fallbackMatch qs (Wifey.storeNameMap stores)))
    ∧ (∀ (db : Wifey.DB) (name : String) (cat : Option String),
        (∀ s ∈ db.stores, s.normalized_name = Wifey.normalize s.name) →
        ∀ s ∈ (Wifey.upsertStore db name cat).1.stores,
          s.normalized_name = Wifey.normalize s.name)
    ∧ (∀ (db : Wifey.DB) (name : String) (cat : Option String),
        db.stores.Pairwise (fun a b => a.normalized_name ≠ b.normalized_name) →
        (Wifey.upsertStore db name cat).1.stores.Pairwise
          (fun a b => a.normalized_name ≠ b.normalized_name)) := by
  refine ⟨fun _ => rfl, ?_, ?_, ?_, ?_⟩
  · intro qs m
    constructor
    · induction qs with
      | nil => exact List.Forall₂.nil
      | cons q rest ih =>
        refine List.Forall₂.cons ?_ ih
        cases hd : Wifey.dictGetStore m (Wifey.matcherNormalize q) <;>
          simp [Wifey.fallbackMatch, hd]
    · simp [Wifey.fallbackMatch]
  · intro stores qs hwf huniq
    induction qs with
    | nil => exact List.Forall₂.nil
    | cons q rest ih =>
      refine List.Forall₂.cons ?_ ih
      dsimp only [Wifey.fallbackMatch, List.map_cons]
      cases hd : Wifey.dictGetStore (Wifey.storeNameMap stores)
          (Wifey.matcherNormalize q) with
      | none =>
        refine ⟨⟨fun hfound => absurd hfound (by simp), ?_⟩, ?_⟩
        · rintro ⟨s, hs, hnq⟩
          have hne := Wifey.dictGetStore_none hd s hs
          refine absurd ?_ hne
          rw [hwf s hs, ← hnq]
          rfl
        · intro t ht hqt
          have hne := Wifey.dictGetStore_none hd t ht
          refine absurd ?_ hne
          rw [hwf t ht, ← hqt]
          rfl
      | some s =>
        obtain ⟨hsmem, hsnorm⟩ := Wifey.dictGetStore_some hd
        refine ⟨⟨fun _ => ⟨s, hsmem, ?_⟩, fun _ => rfl⟩, ?_⟩
        · rw [← hwf s hsmem, hsnorm]
          rfl
        · intro t ht hqt
          have htn : t.normalized_name = s.normalized_name := by
            rw [hwf t ht, ← hqt, hsnorm]
            rfl
          have hts : t = s := by
            by_contra hne
            exact absurd htn
              (List.Pairwise.forall (fun _ _ h => h.symm) huniq ht hsmem hne)
          subst hts
          exact ⟨rfl, rfl⟩
  · intro db name cat hwf s hs
    simp only [Wifey.upsertStore] at hs
    split at hs
    · exact hwf s hs
    · rcases List.mem_append.mp hs with h | h
      · exact hwf s h
      · simp only [List.mem_singleton] at h
        subst h
        rfl
  · intro db name cat huniq
    simp only [Wifey.upsertStore]
    split
    · exact huniq
    · rename_i hnone
      rw [List.pairwise_append]
      refine ⟨huniq, by simp, ?_⟩
      intro a ha b hb
      simp only [List.mem_singleton] at hb
      subst hb
      rw [List.find?_eq_none] at hnone
      have := hnone a ha
      simpa using this

/-- Witness for C10's hypothesised conjuncts over one ingested store
(`"Uniqlo"`, category `"Fashion"`) and the queries `"UNIQLO!!"` (a
case/punctuation variant, matched) and `"Zara"` (unmatched). -/
theorem C10_matcher_matches_ingestion_normalization_witness :
    List.Forall₂ (fun q r =>
      ((r : Wifey.MatchedStore).found = true
        ↔ ∃ s ∈ [(⟨0, "Uniqlo", some "Fashion", "uniqlo"⟩ : Wifey.StoreRec)],
            Wifey.normalize q = Wifey.normalize s.name)
      ∧ (∀ t ∈ [(⟨0, "Uniqlo", some "Fashion", "uniqlo"⟩ : Wifey.StoreRec)],
          Wifey.normalize q = Wifey.normalize t.name →
          r.matched_id = some t.id ∧ r.matched_name = some t.name))
      ["UNIQLO!!", "Zara"]
      (Wifey.fallbackMatch ["UNIQLO!!", "Zara"]
        (Wifey.storeNameMap [⟨0, "Uniqlo", some "Fashion", "uniqlo"⟩])) :=
  C10_matcher_matches_ingestion_normalization.2.2.1
    [⟨0, "Uniqlo", some "Fashion", "uniqlo"⟩] ["UNIQLO!!", "Zara"]
    (by decide) (by decide)

/-- Witness for C6's hypothesised conjuncts at the concrete input `"#03-24A"`. -/
theorem C6_floor_parsing_witness :
    Wifey.parseFloorFromUnit (some "#03-24A") = some (toString (Wifey.digitsVal ['0', '3'])) :=
  C6_floor_parsing.2.2.1 "#03-24A" ['0', '3'] "24A".data (by decide) (by decide)
    (Or.inr (by decide))
